import Mathlib

/-!
# perf-invok: the trace-driven sampling driver of `src/main.c`

The tracer process of `main.c` is embedded as a deterministic small-step
machine.  Every C statement of the parent branch of `main`, of
`perInvocationPerformance` and of `globalPerformance` is one program point
(`PC`), named after the function and annotated with its source line.  The
environment is the list of results the successive `waitpid` calls will
return; a `waitpid` with no pending result blocks (the machine stutters).
Calls into the operating system and into the other translation units
(`breakpoint.c`, `sample.c`) are recorded, in order, in a trace of `Event`s.
The asynchronous signal handler `handler` is a function on machine states: a
signal delivered at a program point is `handler` applied to the state reached
there.  Unsigned 32-bit arithmetic is arithmetic on `Nat` modulo `2 ^ 32`.
-/

namespace PerfInvok

/-! ## Constants and machine integers -/

/-- Line 17: `#define MAX_SAMPLES 8192`. -/
def MAX_SAMPLES : Nat := 8192

/-- `UINT_MAX` of `<limits.h>`. -/
def UINT_MAX : Nat := 4294967295

/-- Unsigned 32-bit addition. -/
def u32add (a b : Nat) : Nat := (a + b) % 4294967296

/-- Unsigned 32-bit subtraction of two values below `2 ^ 32`. -/
def u32sub (a b : Nat) : Nat := (a + 4294967296 - b) % 4294967296

/-- Signal numbers of `<signal.h>` on Linux. -/
def SIGINT : Nat := 2
def SIGTRAP : Nat := 5
def SIGUSR1 : Nat := 10
def SIGALRM : Nat := 14
def SIGTERM : Nat := 15

/-- `WIFEXITED(status)` of `<sys/wait.h>`: the low seven bits are zero. -/
def WIFEXITED (status : Nat) : Bool := status % 128 == 0

/-- Wait status of a tracee stopped by signal `sig`: `(sig << 8) | 0x7f`. -/
def stopStatus (sig : Nat) : Nat := sig * 256 + 127

/-- Wait status of a tracee that called `exit(code)`: `code << 8`. -/
def exitStatus (code : Nat) : Nat := (code % 256) * 256

/-! ## Environment and observable events -/

/-- What one call of `waitpid(pid, &status, 0)` returns: `-1`, or the pid
together with the word written to `status`. -/
inductive WaitResult where
  | failed : WaitResult
  | reported (status : Nat) : WaitResult
  deriving DecidableEq, Repr

/-- Calls made by the tracer, in program order. -/
inductive Event where
  | waitpid : Event
  | configureEvents : Event
  | setBreakpoint (addr : Nat) : Event
  | resetBreakpoint : Event
  | ptraceCont : Event
  | beginSample (index : Nat) : Event
  | endSample (index : Nat) : Event
  | printSamples (count : Nat) (headers : Bool) : Event
  | kill (signum : Nat) : Event
  | alarm (seconds : Nat) : Event
  | fclose : Event
  deriving DecidableEq, Repr

/-- Program points of the parent branch of `main` (lines 184-202), of
`perInvocationPerformance` (lines 48-81) and of `globalPerformance`
(lines 86-95). -/
inductive PC where
  | main_wait       -- 185  waitpid(pid, &status, 0)
  | main_configure  -- 187  configureEvents(pid)
  | main_dispatch   -- 189  if (addrStart > 0 && addrEnd > 0)
  | pi_set0         -- 48   setBreakpoint(pid, addrStart, &bp)
  | pi_cont0        -- 49   ptrace(PTRACE_CONT, ...)
  | pi_head         -- 51   while (waitpid(...) != -1 && sampleCount < maxSamples && !WIFEXITED(status))
  | pi_reset1       -- 53   resetBreakpoint(pid, &bp)
  | pi_set1         -- 54   setBreakpoint(pid, addrEnd, &bp)
  | pi_begin        -- 56   beginSample(&samples[sampleCount - flushedSampleCount])
  | pi_flag1        -- 57   sampleInProgress = 1
  | pi_cont1        -- 59   ptrace(PTRACE_CONT, ...)
  | pi_wait         -- 60   waitpid(pid, &status, 0)
  | pi_flag0        -- 62   sampleInProgress = 0
  | pi_end          -- 63   endSample(&samples[sampleCount - flushedSampleCount])
  | pi_inc          -- 65   sampleCount++
  | pi_check        -- 67   if (sampleCount % MAX_SAMPLES == 0)
  | pi_print        -- 68   printSamples(outputFile, sampleCount - flushedSampleCount, samples, printHeaders)
  | pi_hdr          -- 70   printHeaders = 0
  | pi_flushed      -- 71   flushedSampleCount += MAX_SAMPLES
  | pi_reset2       -- 74   resetBreakpoint(pid, &bp)
  | pi_set2         -- 75   setBreakpoint(pid, addrStart, &bp)
  | pi_cont2        -- 76   ptrace(PTRACE_CONT, ...)
  | pi_kill         -- 79   if (sampleCount == maxSamples) kill(pid, SIGTERM)
  | pi_ret          -- 81   return 0   (assigned to status of main, line 191)
  | g_begin         -- 86   beginSample(&samples[0])
  | g_flag1         -- 87   sampleInProgress = 1
  | g_cont          -- 89   ptrace(PTRACE_CONT, ...)
  | g_alarm         -- 90   alarm(timeout)
  | g_wait          -- 91   waitpid(pid, &status, 0)
  | g_flag0         -- 93   sampleInProgress = 0
  | g_end           -- 94   endSample(&samples[0])
  | g_inc           -- 95   sampleCount++
  | main_print      -- 197  printSamples(outputFile, sampleCount - flushedSampleCount, samples, printHeaders)
  | main_close      -- 200  if (outputFile != stderr) fclose(outputFile)
  | main_ret        -- 202  return status
  | halted          --      the process has terminated
  deriving DecidableEq, Repr

/-- How the tracer process ended. -/
inductive Outcome where
  | running : Outcome
  /-- Value of `return status` in `main`; `none` is an uninitialised `status`. -/
  | returned (status : Option Nat) : Outcome
  /-- Argument of `exit` called from `handler`. -/
  | exited (code : Int) : Outcome
  deriving DecidableEq, Repr

/-- Values fixed before the tracer starts measuring: the parsed command line
(lines 101-106) and the buffer capacity (`MAX_SAMPLES`, line 17). -/
structure Config where
  addrStart : Nat
  addrEnd : Nat
  maxSamples : Nat
  timeout : Nat
  /-- An output path was given, so `outputFile != stderr`. -/
  output : Bool
  /-- Capacity of `samples`, the constant `MAX_SAMPLES`. -/
  cap : Nat
  deriving DecidableEq, Repr

/-- File-scope variables of `main.c` (lines 21-24), the local `status` of
`main`, the program point, and the bookkeeping of the embedding. -/
structure State where
  pc : PC
  sampleCount : Nat
  flushedSampleCount : Nat
  printHeaders : Bool
  sampleInProgress : Bool
  /-- Local `status` of `main` (line 184); `none` while uninitialised. -/
  status : Option Nat
  /-- Results of the `waitpid` calls still to come. -/
  waits : List WaitResult
  trace : List Event
  outcome : Outcome
  deriving DecidableEq, Repr

/-- State when the parent reaches line 185: the initialisers of lines 21-24
(`sampleCount = 0`, `flushedSampleCount = 0`, `printHeaders = 1`,
`sampleInProgress = 1`) and the handlers of lines 179-182 installed. -/
def init (waits : List WaitResult) : State :=
  { pc := .main_wait, sampleCount := 0, flushedSampleCount := 0,
    printHeaders := true, sampleInProgress := true, status := none,
    waits := waits, trace := [], outcome := .running }

/-- Record a call and move to the next program point. -/
def State.emit (s : State) (e : Event) (next : PC) : State :=
  { s with trace := s.trace ++ [e], pc := next }

/-- A `waitpid` whose result is ignored (lines 60 and 91): blocks while no
result is pending. -/
def State.waitAny (s : State) (next : PC) : State :=
  match s.waits with
  | [] => s
  | _ :: rest => { s with waits := rest, trace := s.trace ++ [.waitpid], pc := next }

/-- One statement of the tracer. -/
def step (cfg : Config) (s : State) : State :=
  match s.pc with
  | .main_wait =>
    match s.waits with
    | [] => s
    | .failed :: rest =>
      { s with waits := rest, trace := s.trace ++ [.waitpid], pc := .main_configure }
    | .reported st :: rest =>
      { s with waits := rest, status := some st, trace := s.trace ++ [.waitpid],
               pc := .main_configure }
  | .main_configure => s.emit .configureEvents .main_dispatch
  | .main_dispatch =>
    if 0 < cfg.addrStart ∧ 0 < cfg.addrEnd then { s with pc := .pi_set0 }
    else { s with pc := .g_begin }
  | .pi_set0 => s.emit (.setBreakpoint cfg.addrStart) .pi_cont0
  | .pi_cont0 => s.emit .ptraceCont .pi_head
  | .pi_head =>
    match s.waits with
    | [] => s
    | .failed :: rest =>
      { s with waits := rest, trace := s.trace ++ [.waitpid], pc := .pi_kill }
    | .reported st :: rest =>
      if s.sampleCount < cfg.maxSamples ∧ WIFEXITED st = false then
        { s with waits := rest, trace := s.trace ++ [.waitpid], pc := .pi_reset1 }
      else
        { s with waits := rest, trace := s.trace ++ [.waitpid], pc := .pi_kill }
  | .pi_reset1 => s.emit .resetBreakpoint .pi_set1
  | .pi_set1 => s.emit (.setBreakpoint cfg.addrEnd) .pi_begin
  | .pi_begin =>
    s.emit (.beginSample (u32sub s.sampleCount s.flushedSampleCount)) .pi_flag1
  | .pi_flag1 => { s with sampleInProgress := true, pc := .pi_cont1 }
  | .pi_cont1 => s.emit .ptraceCont .pi_wait
  | .pi_wait => s.waitAny .pi_flag0
  | .pi_flag0 => { s with sampleInProgress := false, pc := .pi_end }
  | .pi_end =>
    s.emit (.endSample (u32sub s.sampleCount s.flushedSampleCount)) .pi_inc
  | .pi_inc => { s with sampleCount := u32add s.sampleCount 1, pc := .pi_check }
  | .pi_check =>
    if s.sampleCount % cfg.cap = 0 then { s with pc := .pi_print }
    else { s with pc := .pi_reset2 }
  | .pi_print =>
    s.emit (.printSamples (u32sub s.sampleCount s.flushedSampleCount) s.printHeaders)
      .pi_hdr
  | .pi_hdr => { s with printHeaders := false, pc := .pi_flushed }
  | .pi_flushed =>
    { s with flushedSampleCount := u32add s.flushedSampleCount cfg.cap, pc := .pi_reset2 }
  | .pi_reset2 => s.emit .resetBreakpoint .pi_set2
  | .pi_set2 => s.emit (.setBreakpoint cfg.addrStart) .pi_cont2
  | .pi_cont2 => s.emit .ptraceCont .pi_head
  | .pi_kill =>
    if s.sampleCount = cfg.maxSamples then s.emit (.kill SIGTERM) .pi_ret
    else { s with pc := .pi_ret }
  | .pi_ret => { s with status := some 0, pc := .main_print }
  | .g_begin => s.emit (.beginSample 0) .g_flag1
  | .g_flag1 => { s with sampleInProgress := true, pc := .g_cont }
  | .g_cont => s.emit .ptraceCont .g_alarm
  | .g_alarm => s.emit (.alarm cfg.timeout) .g_wait
  | .g_wait => s.waitAny .g_flag0
  | .g_flag0 => { s with sampleInProgress := false, pc := .g_end }
  | .g_end => s.emit (.endSample 0) .g_inc
  | .g_inc => { s with sampleCount := u32add s.sampleCount 1, pc := .main_print }
  | .main_print =>
    s.emit (.printSamples (u32sub s.sampleCount s.flushedSampleCount) s.printHeaders)
      .main_close
  | .main_close =>
    if cfg.output then s.emit .fclose .main_ret else { s with pc := .main_ret }
  | .main_ret => { s with outcome := .returned s.status, pc := .halted }
  | .halted => s

/-- The tracer after `n` statements. -/
def stepN (cfg : Config) : Nat → State → State
  | 0, s => s
  | n + 1, s => stepN cfg n (step cfg s)

/-- State of a run, with no signal delivered, after `n` statements. -/
def run (cfg : Config) (waits : List WaitResult) (n : Nat) : State :=
  stepN cfg n (init waits)

/-- Lines 27-39: `handler(signum)`, entered with the tracer in state `s`.
It ends the process with `exit(-1)`. -/
def handler (cfg : Config) (signum : Nat) (s : State) : State :=
  let s1 : State := { s with trace := s.trace ++ [.kill signum] }
  let s2 : State :=
    if s1.sampleInProgress then
      { s1 with
          trace := s1.trace ++ [.endSample (u32sub s1.sampleCount s1.flushedSampleCount)],
          sampleCount := u32add s1.sampleCount 1 }
    else s1
  let s3 : State :=
    { s2 with
        trace := s2.trace ++
          [.printSamples (u32sub s2.sampleCount s2.flushedSampleCount) s2.printHeaders] }
  let s4 : State := if cfg.output then { s3 with trace := s3.trace ++ [.fclose] } else s3
  { s4 with outcome := .exited (-1), pc := .halted }

/-- A run in which a termination signal is delivered after `n` statements. -/
def runSignal (cfg : Config) (waits : List WaitResult) (n : Nat) (signum : Nat) : State :=
  handler cfg signum (run cfg waits n)

/-! ## Projections of the trace -/

/-- Formatter calls of a trace: `(number of samples, headers)` per call, in order. -/
def printCalls (tr : List Event) : List (Nat × Bool) :=
  tr.filterMap fun e =>
    match e with
    | .printSamples c h => some (c, h)
    | _ => none

/-- Signals sent to the tracee, in order. -/
def killsSent (tr : List Event) : List Nat :=
  tr.filterMap fun e =>
    match e with
    | .kill sig => some sig
    | _ => none

def Event.isBegin : Event → Bool
  | .beginSample _ => true
  | _ => false

def Event.isEnd : Event → Bool
  | .endSample _ => true
  | _ => false

/-- Number of `beginSample` calls. -/
def beginCount (tr : List Event) : Nat := tr.countP Event.isBegin

/-- Number of `endSample` calls. -/
def endCount (tr : List Event) : Nat := tr.countP Event.isEnd

/-- The index of an access to `samples` is inside the array of `cap` slots. -/
def Event.indexOk (cap : Nat) : Event → Bool
  | .beginSample i => decide (i < cap)
  | .endSample i => decide (i < cap)
  | _ => true

/-- Every access to `samples` recorded in the trace is in bounds. -/
def indicesOk (cap : Nat) (tr : List Event) : Bool := tr.all (Event.indexOk cap)

/-- The buffer counters are coherent: the flushed count does not exceed the
sample count, at most `cap` samples are buffered, the flushed count is a
multiple of `cap`, every recorded access to `samples` is in bounds, and the
32-bit `sampleCount` is the true number of closed samples, the one being
counted at `sampleCount++` apart, so it has not wrapped around. -/
def CountersOk (cap : Nat) (s : State) : Prop :=
  s.flushedSampleCount ≤ s.sampleCount ∧
  s.sampleCount - s.flushedSampleCount ≤ cap ∧
  cap ∣ s.flushedSampleCount ∧
  indicesOk cap s.trace = true ∧
  endCount s.trace < 4294967296 ∧
  (s.sampleCount = endCount s.trace ∨ s.sampleCount + 1 = endCount s.trace)

/-! ## The cursor breakpoint, replayed from the trace

`setBreakpoint` arms the single cursor breakpoint `bp` at an address and
`resetBreakpoint` disarms it (both live in `breakpoint.c`; only the calls are
visible in `main.c`).  A sample is in progress after a `beginSample` that no
`endSample` has followed. -/

structure BpView where
  /-- Address covered by the armed cursor breakpoint, if it is armed. -/
  armed : Option Nat
  /-- A `beginSample` has been issued and no `endSample` since. -/
  inProgress : Bool
  /-- No discipline violation so far. -/
  ok : Bool
  deriving DecidableEq, Repr

/-- Effect of one call on the breakpoint view.  `setBreakpoint` requires the
cursor to be disarmed, `resetBreakpoint` requires it to be armed, and a
`PTRACE_CONT` requires it to be armed at `addrEnd` while a sample is in
progress and at `addrStart` otherwise. -/
def bpStep (addrStart addrEnd : Nat) (v : BpView) : Event → BpView
  | .setBreakpoint a => { v with armed := some a, ok := v.ok && v.armed.isNone }
  | .resetBreakpoint => { v with armed := none, ok := v.ok && v.armed.isSome }
  | .beginSample _ => { v with inProgress := true }
  | .endSample _ => { v with inProgress := false }
  | .ptraceCont =>
    { v with ok := v.ok && (v.armed == some (if v.inProgress then addrEnd else addrStart)) }
  | _ => v

/-- Breakpoint view after a whole trace, starting disarmed and idle. -/
def bpReplay (addrStart addrEnd : Nat) (tr : List Event) : BpView :=
  tr.foldl (bpStep addrStart addrEnd) { armed := none, inProgress := false, ok := true }

/-! ## Region passes as the tracee performs them -/

/-- The wait result is a stop of the tracee (neither an error nor an exit). -/
def WaitResult.isStop : WaitResult → Bool
  | .failed => false
  | .reported st => !WIFEXITED st

/-- The wait result is a stop by the breakpoint trap. -/
def WaitResult.isTrapStop (w : WaitResult) : Bool :=
  w == .reported (stopStatus SIGTRAP)

/-- Stated from the specification ("the number of `addr_start` trap events
observed that were followed by an `addr_end` trap event before tracee exit"):
breakpoint traps alternate between the start and the end address, so the
completed regions are half the trap stops seen before the tracee is gone. -/
def regionsCompleted (waits : List WaitResult) : Nat :=
  ((waits.takeWhile WaitResult.isStop).countP WaitResult.isTrapStop) / 2

/-- Wait results of a tracee that stops twice per loop iteration: the pair
`(a, b)` is the stop reported at line 51 and the stop reported at line 60. -/
def waitsOf : List (Nat × Nat) → List WaitResult
  | [] => []
  | (a, b) :: rest => .reported a :: .reported b :: waitsOf rest

/-- Formatter calls made inside the loop once `n` samples are closed: one call
of `cap` samples per full buffer, headers on the first only. -/
def inLoopCalls (cap n : Nat) : List (Nat × Bool) :=
  (List.range (n / cap)).map fun i => (cap, decide (i = 0))

/-- Summary of the state at line 51 after `n` loop iterations of a run. -/
def LoopInv (cfg : Config) (n : Nat) (s : State) : Prop :=
  s.pc = .pi_head ∧ s.sampleCount = n ∧ s.flushedSampleCount = cfg.cap * (n / cfg.cap) ∧
  s.printHeaders = decide (n / cfg.cap = 0) ∧ printCalls s.trace = inLoopCalls cfg.cap n ∧
  killsSent s.trace = [] ∧ endCount s.trace = n ∧ beginCount s.trace = n ∧
  s.outcome = .running

/-- Summary of a halted per-invocation run that closed `n` samples and met
no termination signal. -/
def Final (cfg : Config) (n : Nat) (s : State) : Prop :=
  s.pc = .halted ∧ s.sampleCount = n ∧
  printCalls s.trace = inLoopCalls cfg.cap n ++ [(n % cfg.cap, decide (n / cfg.cap = 0))] ∧
  killsSent s.trace = (if n = cfg.maxSamples then [SIGTERM] else []) ∧
  endCount s.trace = n ∧ beginCount s.trace = n ∧
  s.outcome = .returned (some 0)

/-! ## Command line (lines 98-151) and the child's argument vector (lines 164-170) -/

/-- The parser states of lines 108-112. -/
inductive ParseState where
  | EXPECTING_OPT
  | EXPECTING_ADDR_START
  | EXPECTING_ADDR_END
  | EXPECTING_MAX_SAMPLES
  | EXPECTING_PROGRAM
  | EXPECTING_OUTPUT
  | EXPECTING_TIMEOUT
  deriving DecidableEq, Repr

/-- Locals of `main` written by the option loop (lines 101-112). -/
structure Parsed where
  addrStart : Nat
  addrEnd : Nat
  maxSamples : Nat
  programStart : Nat
  timeout : Nat
  output : Option String
  state : ParseState
  deriving DecidableEq, Repr

/-- Lines 101-112: the initial values. -/
def Parsed.initial : Parsed :=
  { addrStart := 0, addrEnd := 0, maxSamples := UINT_MAX, programStart := 1, timeout := 0,
    output := none, state := .EXPECTING_OPT }

/-- Lines 115-150: the body of the option loop at index `i`.  The libc
conversions `strtoull(.., 16)` and `atoi` (already reduced to `unsigned int`)
are parameters. -/
def parseArg (strtoull16 atoi : String → Nat) (p : Parsed) (i : Nat) (arg : String) : Parsed :=
  match p.state with
  | .EXPECTING_OPT =>
    if arg = "-begin" then { p with state := .EXPECTING_ADDR_START }
    else if arg = "-end" then { p with state := .EXPECTING_ADDR_END }
    else if arg = "-max" then { p with state := .EXPECTING_MAX_SAMPLES }
    else if arg = "-o" then { p with state := .EXPECTING_OUTPUT }
    else if arg = "-timeout" then { p with state := .EXPECTING_TIMEOUT }
    else { p with state := .EXPECTING_PROGRAM, programStart := i }
  | .EXPECTING_ADDR_START => { p with addrStart := strtoull16 arg, state := .EXPECTING_OPT }
  | .EXPECTING_ADDR_END => { p with addrEnd := strtoull16 arg, state := .EXPECTING_OPT }
  | .EXPECTING_MAX_SAMPLES => { p with maxSamples := atoi arg, state := .EXPECTING_OPT }
  | .EXPECTING_TIMEOUT => { p with timeout := atoi arg, state := .EXPECTING_OPT }
  | .EXPECTING_OUTPUT => { p with output := some arg, state := .EXPECTING_OPT }
  | .EXPECTING_PROGRAM => p

/-- Line 114: `for (int i = 1; i < argc; i++)`, over `argv[i ..]`. -/
def parseLoop (strtoull16 atoi : String → Nat) : Parsed → Nat → List String → Parsed
  | p, _, [] => p
  | p, i, arg :: rest => parseLoop strtoull16 atoi (parseArg strtoull16 atoi p i arg) (i + 1) rest

/-- Lines 101-151 on the whole `argv` (`argv[0]` is skipped). -/
def parseArgs (strtoull16 atoi : String → Nat) (argv : List String) : Parsed :=
  parseLoop strtoull16 atoi Parsed.initial 1 (argv.drop 1)

/-- Lines 165-168: the array `newargs` built by the child.  `argv` holds the
`argc` strings; the C array has one more element, `argv[argc] = NULL`.
`numParams` is `argc - 3` as an `unsigned int`; `memcpy` copies
`numParams + 1` pointers starting at `argv[programStart]` and
`newargs[numParams + 1]` is set to `NULL`.  The result is `none` when the copy
reads past `argv[argc]`. -/
def childNewargs (argv : List String) (programStart : Nat) : Option (List (Option String)) :=
  let argc := argv.length
  let numParams := u32sub argc 3
  let copied := u32add numParams 1
  if programStart + copied ≤ argc + 1 then
    some ((((argv.map some) ++ [none]).drop programStart).take copied ++ [none])
  else none

/-- The argument vector `execvp` sees in `newargs`: the strings before the
first `NULL`. -/
def execArgs (newargs : List (Option String)) : List String :=
  (newargs.takeWhile Option.isSome).filterMap id

/-! ## Concrete scenarios -/

/-- A stop of the tracee at a breakpoint trap. -/
def trap : WaitResult := .reported (stopStatus SIGTRAP)

/-- Per-invocation configuration on the region `0x1000 .. 0x2000`. -/
def regionCfg (maxSamples cap : Nat) : Config :=
  { addrStart := 4096, addrEnd := 8192, maxSamples := maxSamples, timeout := 0,
    output := false, cap := cap }

/-- Global configuration (no region given) with the source's capacity. -/
def globalCfg (timeout : Nat) : Config :=
  { addrStart := 0, addrEnd := 0, maxSamples := UINT_MAX, timeout := timeout,
    output := false, cap := MAX_SAMPLES }

/-- A tracee that passes `n` times through the region and exits with code 0:
the initial stop, two trap stops per pass, the exit. -/
def loopWaits (n : Nat) : List WaitResult :=
  trap :: (waitsOf (List.replicate n (stopStatus SIGTRAP, stopStatus SIGTRAP)) ++
    [.reported (exitStatus 0)])

/-- The calls made after the last `endSample` of a trace. -/
def afterLastEnd (tr : List Event) : List Event :=
  (tr.reverse.takeWhile fun e => !e.isEnd).reverse

/-! ## Invariants of the machine, by program point -/

/-- What the counters satisfy at each program point. -/
def Inv2 (cfg : Config) (s : State) : Prop :=
  s.flushedSampleCount ≤ s.sampleCount ∧ cfg.cap ∣ s.flushedSampleCount ∧
  s.sampleCount < 4294967296 ∧ indicesOk cfg.cap s.trace = true ∧
  (s.sampleInProgress = true →
    s.sampleCount - s.flushedSampleCount < cfg.cap ∧ s.sampleCount + 1 < 4294967296 ∧
      s.sampleCount = endCount s.trace) ∧
  match s.pc with
  | .main_wait | .main_configure | .main_dispatch | .pi_set0 | .pi_cont0
  | .g_begin | .g_flag1 | .g_cont | .g_alarm | .g_wait | .g_flag0 =>
    s.sampleCount = 0 ∧ s.flushedSampleCount = 0 ∧ endCount s.trace = 0
  | .g_end =>
    s.sampleCount = 0 ∧ s.flushedSampleCount = 0 ∧ endCount s.trace = 0 ∧
      s.sampleInProgress = false
  | .g_inc =>
    s.sampleCount = 0 ∧ s.flushedSampleCount = 0 ∧ endCount s.trace = 1 ∧
      s.sampleInProgress = false
  | .pi_head | .pi_reset2 | .pi_set2 | .pi_cont2 =>
    s.sampleCount - s.flushedSampleCount < cfg.cap ∧ s.sampleCount = endCount s.trace
  | .pi_reset1 | .pi_set1 | .pi_begin | .pi_flag1 | .pi_cont1 | .pi_wait | .pi_flag0 =>
    s.sampleCount < cfg.maxSamples ∧ s.sampleCount - s.flushedSampleCount < cfg.cap ∧
      s.sampleCount = endCount s.trace
  | .pi_end =>
    s.sampleCount < cfg.maxSamples ∧ s.sampleCount - s.flushedSampleCount < cfg.cap ∧
      s.sampleCount = endCount s.trace ∧ s.sampleInProgress = false
  | .pi_inc =>
    s.sampleCount < cfg.maxSamples ∧ s.sampleCount - s.flushedSampleCount < cfg.cap ∧
      s.sampleCount + 1 = endCount s.trace ∧ s.sampleInProgress = false
  | .pi_check =>
    s.flushedSampleCount < s.sampleCount ∧ s.sampleCount - s.flushedSampleCount ≤ cfg.cap ∧
      s.sampleCount = endCount s.trace ∧ s.sampleInProgress = false
  | .pi_print | .pi_hdr | .pi_flushed =>
    s.sampleCount = s.flushedSampleCount + cfg.cap ∧ s.sampleCount = endCount s.trace ∧
      s.sampleInProgress = false
  | .pi_kill | .pi_ret | .main_print | .main_close | .main_ret | .halted =>
    s.sampleCount - s.flushedSampleCount ≤ cfg.cap ∧ s.sampleCount = endCount s.trace

/-- The breakpoint view at each program point of per-invocation mode; the
program points of `globalPerformance` are not reached there. -/
def Inv10 (cfg : Config) (s : State) : Prop :=
  match s.pc with
  | .main_wait | .main_configure | .main_dispatch | .pi_set0 | .pi_set1 | .pi_set2 =>
    bpReplay cfg.addrStart cfg.addrEnd s.trace = { armed := none, inProgress := false, ok := true }
  | .pi_cont0 | .pi_head | .pi_reset1 | .pi_cont2 | .pi_kill | .pi_ret | .main_print
  | .main_close | .main_ret | .halted =>
    bpReplay cfg.addrStart cfg.addrEnd s.trace =
      { armed := some cfg.addrStart, inProgress := false, ok := true }
  | .pi_begin | .pi_inc | .pi_check | .pi_print | .pi_hdr | .pi_flushed | .pi_reset2 =>
    bpReplay cfg.addrStart cfg.addrEnd s.trace =
      { armed := some cfg.addrEnd, inProgress := false, ok := true }
  | .pi_flag1 | .pi_cont1 | .pi_wait | .pi_flag0 | .pi_end =>
    bpReplay cfg.addrStart cfg.addrEnd s.trace =
      { armed := some cfg.addrEnd, inProgress := true, ok := true }
  | .g_begin | .g_flag1 | .g_cont | .g_alarm | .g_wait | .g_flag0 | .g_end | .g_inc => False

/-- The sample cap at each program point of per-invocation mode. -/
def Inv6 (cfg : Config) (s : State) : Prop :=
  match s.pc with
  | .pi_reset1 | .pi_set1 | .pi_begin | .pi_flag1 | .pi_cont1 | .pi_wait | .pi_flag0
  | .pi_end | .pi_inc => s.sampleCount < cfg.maxSamples
  | .g_begin | .g_flag1 | .g_cont | .g_alarm | .g_wait | .g_flag0 | .g_end | .g_inc => False
  | .main_wait | .main_configure | .main_dispatch | .pi_set0 | .pi_cont0 => s.sampleCount = 0
  | _ => s.sampleCount ≤ cfg.maxSamples

/-! # Theorems -/

/-! ## Running the machine -/

theorem stepN_add (cfg : Config) (a b : Nat) (s : State) :
    stepN cfg (a + b) s = stepN cfg b (stepN cfg a s) := by
  induction a generalizing s with
  | zero => simp [stepN]
  | succ a ih => rw [Nat.succ_add]; simp only [stepN]; exact ih _

theorem stepN_succ_right (cfg : Config) (n : Nat) (s : State) :
    stepN cfg (n + 1) s = step cfg (stepN cfg n s) := by
  rw [stepN_add]; rfl

theorem stepN_fixed (cfg : Config) (s : State) (h : step cfg s = s) (n : Nat) :
    stepN cfg n s = s := by
  induction n with
  | zero => rfl
  | succ n ih => simp only [stepN, h, ih]

theorem stepN_of_le (cfg : Config) (s : State) (k n : Nat) (hk : k ≤ n)
    (h : step cfg (stepN cfg k s) = stepN cfg k s) : stepN cfg n s = stepN cfg k s := by
  obtain ⟨m, rfl⟩ := Nat.exists_eq_add_of_le hk
  rw [stepN_add, stepN_fixed cfg _ h]

theorem step_halted (cfg : Config) (s : State) (h : s.pc = .halted) : step cfg s = s := by
  simp [step, h]

/-! ## Trace projections and appended events -/

theorem printCalls_append (a b : List Event) :
    printCalls (a ++ b) = printCalls a ++ printCalls b := by
  simp [printCalls]

theorem killsSent_append (a b : List Event) :
    killsSent (a ++ b) = killsSent a ++ killsSent b := by
  simp [killsSent]

theorem endCount_append (a b : List Event) : endCount (a ++ b) = endCount a + endCount b := by
  simp [endCount]

theorem beginCount_append (a b : List Event) :
    beginCount (a ++ b) = beginCount a + beginCount b := by
  simp [beginCount]

theorem indicesOk_append (cap : Nat) (a b : List Event) :
    indicesOk cap (a ++ b) = (indicesOk cap a && indicesOk cap b) := by
  simp [indicesOk]

theorem indicesOk_nil (cap : Nat) : indicesOk cap [] = true := rfl

theorem indicesOk_cons (cap : Nat) (e : Event) (tr : List Event) :
    indicesOk cap (e :: tr) = (e.indexOk cap && indicesOk cap tr) := by
  simp [indicesOk]

theorem endCount_nil : endCount [] = 0 := rfl

theorem endCount_cons (e : Event) (tr : List Event) :
    endCount (e :: tr) = endCount tr + (if e.isEnd then 1 else 0) := by
  simp [endCount, List.countP_cons]

theorem beginCount_nil : beginCount [] = 0 := rfl

theorem beginCount_cons (e : Event) (tr : List Event) :
    beginCount (e :: tr) = beginCount tr + (if e.isBegin then 1 else 0) := by
  simp [beginCount, List.countP_cons]

theorem bpReplay_append (x y : Nat) (a b : List Event) :
    bpReplay x y (a ++ b) = b.foldl (bpStep x y) (bpReplay x y a) := by
  simp [bpReplay]

/-! ## Counter invariant -/

theorem flush_exact (cap f c : Nat) (hd : cap ∣ f) (h1 : f < c) (h2 : c - f ≤ cap)
    (h3 : c % cap = 0) : c = f + cap := by
  have hc : cap ∣ c := Nat.dvd_of_mod_eq_zero h3
  have hs : cap ∣ c - f := Nat.dvd_sub' hc hd
  have hle : cap ≤ c - f := Nat.le_of_dvd (by omega) hs
  omega

theorem no_flush_room (cap f c : Nat) (hd : cap ∣ f) (h1 : f < c) (h2 : c - f ≤ cap)
    (h3 : ¬ c % cap = 0) : c - f < cap := by
  rcases Nat.lt_or_ge (c - f) cap with h | h
  · exact h
  · exfalso
    apply h3
    have : c = f + cap := by omega
    rw [this]
    exact Nat.mod_eq_zero_of_dvd (Nat.dvd_add hd (Nat.dvd_refl cap))

theorem inv2_init (cfg : Config) (hcap : 0 < cfg.cap) (waits : List WaitResult) :
    Inv2 cfg (init waits) := by
  simp [Inv2, init, indicesOk, endCount, hcap]

theorem indicesOk_snoc (cap : Nat) (tr : List Event) (e : Event) :
    indicesOk cap (tr ++ [e]) = (indicesOk cap tr && e.indexOk cap) := by
  simp [indicesOk]

theorem endCount_snoc (tr : List Event) (e : Event) :
    endCount (tr ++ [e]) = endCount tr + (if e.isEnd then 1 else 0) := by
  simp [endCount, List.countP_append, List.countP_cons]

set_option maxHeartbeats 2000000 in
theorem inv2_step (cfg : Config) (hcap : 0 < cfg.cap) (hmax : cfg.maxSamples < 4294967296)
    (s : State) (h : Inv2 cfg s) : Inv2 cfg (step cfg s) := by
  obtain ⟨pc, c, f, ph, ip, st, ws, tr, oc⟩ := s
  obtain ⟨h1, h2, h3, h4, h5, h6⟩ := h
  dsimp only at h1 h2 h3 h4 h5 h6
  cases pc
  case main_wait =>
    rcases ws with _ | ⟨w, rest⟩
    · simpa [Inv2, step] using ⟨h1, h2, h3, h4, h5, h6⟩
    · cases w <;>
        simp_all [Inv2, step, indicesOk_snoc, endCount_snoc, Event.indexOk, Event.isEnd]
  case pi_wait =>
    rcases ws with _ | ⟨w, rest⟩
    · simpa [Inv2, step, State.waitAny] using ⟨h1, h2, h3, h4, h5, h6⟩
    · simp_all [Inv2, step, State.waitAny, indicesOk_snoc, endCount_snoc, Event.indexOk,
        Event.isEnd]
      omega
  case g_wait =>
    rcases ws with _ | ⟨w, rest⟩
    · simpa [Inv2, step, State.waitAny] using ⟨h1, h2, h3, h4, h5, h6⟩
    · simp_all [Inv2, step, State.waitAny, indicesOk_snoc, endCount_snoc, Event.indexOk,
        Event.isEnd]
  case pi_head =>
    rcases ws with _ | ⟨w, rest⟩
    · simpa [Inv2, step] using ⟨h1, h2, h3, h4, h5, h6⟩
    · cases w
      · simp_all [Inv2, step, indicesOk_snoc, endCount_snoc, Event.indexOk, Event.isEnd]
        omega
      · simp only [step]
        split <;>
          simp_all [Inv2, indicesOk_snoc, endCount_snoc, Event.indexOk, Event.isEnd] <;> omega
  case pi_check =>
    simp only [Inv2] at h6
    obtain ⟨h6a, h6b, h6c, h6d⟩ := h6
    simp only [step]
    split
    · next hz =>
      have := flush_exact cfg.cap f c h2 h6a h6b hz
      simp_all [Inv2]
    · next hz =>
      have := no_flush_room cfg.cap f c h2 h6a h6b hz
      simp_all [Inv2]
  case pi_flushed =>
    obtain ⟨h6a, h6b, h6c⟩ := h6
    have hd : cfg.cap ∣ f + cfg.cap := Nat.dvd_add h2 (Nat.dvd_refl _)
    have hm : u32add f cfg.cap = f + cfg.cap := by
      unfold u32add
      exact Nat.mod_eq_of_lt (by omega)
    simp only [Inv2, step, hm]
    refine ⟨by omega, hd, h3, h4, ?_, by omega, by omega⟩
    intro hip
    simp [h6c] at hip
  case main_dispatch =>
    simp only [step]
    split <;> simp_all [Inv2]
  case pi_kill =>
    simp only [step]
    split <;>
      simp_all [Inv2, State.emit, indicesOk_snoc, endCount_snoc, Event.indexOk, Event.isEnd] <;>
      omega
  case main_close =>
    simp only [step]
    split <;>
      simp_all [Inv2, State.emit, indicesOk_snoc, endCount_snoc, Event.indexOk, Event.isEnd] <;>
      omega
  all_goals
    simp_all [Inv2, step, State.emit, indicesOk_snoc, endCount_snoc, Event.indexOk,
      Event.isEnd, u32add, u32sub]
  all_goals omega

theorem inv2_run (cfg : Config) (hcap : 0 < cfg.cap) (hmax : cfg.maxSamples < 4294967296)
    (waits : List WaitResult) (n : Nat) : Inv2 cfg (run cfg waits n) := by
  induction n with
  | zero => exact inv2_init cfg hcap waits
  | succ n ih =>
    unfold run at ih ⊢
    rw [stepN_succ_right]
    exact inv2_step cfg hcap hmax _ ih

theorem inv2_counters (cfg : Config) (hmax : cfg.maxSamples < 4294967296) (s : State)
    (h : Inv2 cfg s) : CountersOk cfg.cap s := by
  obtain ⟨pc, c, f, ph, ip, st, ws, tr, oc⟩ := s
  obtain ⟨h1, h2, h3, h4, h5, h6⟩ := h
  dsimp only at h1 h2 h3 h4 h5 h6
  simp only [CountersOk]
  refine ⟨h1, ?_, h2, h4, ?_, ?_⟩ <;> cases pc <;> simp only at h6 <;> omega

theorem inv2_handler (cfg : Config) (signum : Nat) (s : State)
    (h : Inv2 cfg s) (hc : CountersOk cfg.cap s) : CountersOk cfg.cap (handler cfg signum s) := by
  obtain ⟨pc, c, f, ph, ip, st, ws, tr, oc⟩ := s
  obtain ⟨h1, h2, h3, h4, h5, -⟩ := h
  obtain ⟨-, k2, -, -, k5, k6⟩ := hc
  dsimp only at h1 h2 h3 h4 h5 k2 k5 k6
  cases ip <;> cases ho : cfg.output <;>
    simp [handler, CountersOk, ho, indicesOk_append, indicesOk_cons, indicesOk_nil,
      endCount_append, endCount_cons, endCount_nil, Event.indexOk, Event.isEnd,
      u32add, u32sub, h1, h2, h4] at h5 ⊢ <;> omega

/-! ## Breakpoint discipline -/

theorem inv10_init (cfg : Config) (waits : List WaitResult) : Inv10 cfg (init waits) := by
  simp [Inv10, init, bpReplay]

set_option maxHeartbeats 2000000 in
theorem inv10_step (cfg : Config) (hs : 0 < cfg.addrStart) (he : 0 < cfg.addrEnd)
    (s : State) (h : Inv10 cfg s) : Inv10 cfg (step cfg s) := by
  obtain ⟨pc, c, f, ph, ip, st, ws, tr, oc⟩ := s
  cases pc
  case main_wait =>
    rcases ws with _ | ⟨w, rest⟩
    · simpa [Inv10, step] using h
    · cases w <;> simp_all [Inv10, step, bpReplay_append, List.foldl, bpStep]
  case pi_wait =>
    rcases ws with _ | ⟨w, rest⟩
    · simpa [Inv10, step, State.waitAny] using h
    · simp_all [Inv10, step, State.waitAny, bpReplay_append, List.foldl, bpStep]
  case g_wait => simp [Inv10] at h
  case pi_head =>
    rcases ws with _ | ⟨w, rest⟩
    · simpa [Inv10, step] using h
    · cases w
      · simp_all [Inv10, step, bpReplay_append, List.foldl, bpStep]
      · simp only [step]
        split <;> simp_all [Inv10, bpReplay_append, List.foldl, bpStep]
  case pi_check =>
    simp only [step]
    split <;> simp_all [Inv10]
  case main_dispatch =>
    simp_all [Inv10, step]
  case pi_kill =>
    simp only [step]
    split <;> simp_all [Inv10, State.emit, bpReplay_append, List.foldl, bpStep]
  case main_close =>
    simp only [step]
    split <;> simp_all [Inv10, State.emit, bpReplay_append, List.foldl, bpStep]
  all_goals simp_all [Inv10, step, State.emit, bpReplay_append, List.foldl, bpStep]

theorem inv10_run (cfg : Config) (hs : 0 < cfg.addrStart) (he : 0 < cfg.addrEnd)
    (waits : List WaitResult) (n : Nat) : Inv10 cfg (run cfg waits n) := by
  induction n with
  | zero => exact inv10_init cfg waits
  | succ n ih =>
    unfold run at ih ⊢
    rw [stepN_succ_right]
    exact inv10_step cfg hs he _ ih

theorem inv10_ok (cfg : Config) (s : State) (h : Inv10 cfg s) :
    (bpReplay cfg.addrStart cfg.addrEnd s.trace).ok = true := by
  obtain ⟨pc, c, f, ph, ip, st, ws, tr, oc⟩ := s
  cases pc <;> simp_all [Inv10]

theorem handler_bp_ok (cfg : Config) (signum : Nat) (s : State)
    (h : (bpReplay cfg.addrStart cfg.addrEnd s.trace).ok = true) :
    (bpReplay cfg.addrStart cfg.addrEnd (handler cfg signum s).trace).ok = true := by
  obtain ⟨pc, c, f, ph, ip, st, ws, tr, oc⟩ := s
  cases ip <;> cases ho : cfg.output <;>
    simp_all [handler, bpReplay_append, List.foldl, bpStep]

/-! ## Sample cap -/

theorem inv6_init (cfg : Config) (waits : List WaitResult) : Inv6 cfg (init waits) := by
  simp [Inv6, init]

set_option maxHeartbeats 2000000 in
theorem inv6_step (cfg : Config) (hs : 0 < cfg.addrStart) (he : 0 < cfg.addrEnd)
    (hmax : cfg.maxSamples < 4294967296) (s : State) (h : Inv6 cfg s) :
    Inv6 cfg (step cfg s) := by
  obtain ⟨pc, c, f, ph, ip, st, ws, tr, oc⟩ := s
  cases pc
  case main_wait =>
    rcases ws with _ | ⟨w, rest⟩
    · simpa [Inv6, step] using h
    · cases w <;> simp_all [Inv6, step]
  case pi_wait =>
    rcases ws with _ | ⟨w, rest⟩
    · simpa [Inv6, step, State.waitAny] using h
    · simp_all [Inv6, step, State.waitAny]
  case g_wait => simp [Inv6] at h
  case pi_head =>
    rcases ws with _ | ⟨w, rest⟩
    · simpa [Inv6, step] using h
    · cases w
      · simp_all [Inv6, step]
      · simp only [step]
        split <;> simp_all [Inv6]
  case pi_check =>
    simp only [step]
    split <;> simp_all [Inv6]
  case main_dispatch =>
    simp_all [Inv6, step]
  case pi_kill =>
    simp only [step]
    split <;> simp_all [Inv6, State.emit]
  case main_close =>
    simp only [step]
    split <;> simp_all [Inv6, State.emit]
  case pi_inc =>
    simp only [Inv6] at h
    simp only [Inv6, step, u32add]
    omega
  all_goals simp_all [Inv6, step, State.emit]

theorem inv6_run (cfg : Config) (hs : 0 < cfg.addrStart) (he : 0 < cfg.addrEnd)
    (hmax : cfg.maxSamples < 4294967296) (waits : List WaitResult) (n : Nat) :
    Inv6 cfg (run cfg waits n) := by
  induction n with
  | zero => exact inv6_init cfg waits
  | succ n ih =>
    unfold run at ih ⊢
    rw [stepN_succ_right]
    exact inv6_step cfg hs he hmax _ ih

theorem inv6_le (cfg : Config) (s : State) (h : Inv6 cfg s) :
    s.sampleCount ≤ cfg.maxSamples := by
  obtain ⟨pc, c, f, ph, ip, st, ws, tr, oc⟩ := s
  cases pc <;> simp only [Inv6] at h ⊢ <;> omega

/-! ## The per-invocation loop, iteration by iteration -/

theorem printCalls_nil : printCalls [] = [] := rfl

theorem printCalls_cons (e : Event) (tr : List Event) :
    printCalls (e :: tr) =
      (match e with
        | .printSamples c h => [(c, h)]
        | _ => []) ++ printCalls tr := by
  cases e <;> simp [printCalls, List.filterMap_cons]

theorem killsSent_nil : killsSent [] = [] := rfl

theorem killsSent_cons (e : Event) (tr : List Event) :
    killsSent (e :: tr) =
      (match e with
        | .kill sig => [sig]
        | _ => []) ++ killsSent tr := by
  cases e <;> simp [killsSent, List.filterMap_cons]

theorem div_succ_of_mod_eq_zero (cap n : Nat) (h : (n + 1) % cap = 0) :
    (n + 1) / cap = n / cap + 1 := by
  rw [Nat.succ_div]
  simp [Nat.dvd_of_mod_eq_zero h]

theorem div_succ_of_mod_ne_zero (cap n : Nat) (h : ¬ (n + 1) % cap = 0) :
    (n + 1) / cap = n / cap := by
  rw [Nat.succ_div]
  have : ¬ cap ∣ n + 1 := fun hd => h (Nat.mod_eq_zero_of_dvd hd)
  simp [this]

theorem flushed_succ (cap n : Nat) (h : (n + 1) % cap = 0) :
    cap * (n / cap) + cap = n + 1 := by
  have h1 := div_succ_of_mod_eq_zero cap n h
  have h2 : cap * ((n + 1) / cap) = n + 1 := Nat.mul_div_cancel' (Nat.dvd_of_mod_eq_zero h)
  rw [h1, Nat.mul_add, Nat.mul_one] at h2
  exact h2

theorem inLoopCalls_succ_flush (cap n : Nat) (h : (n + 1) % cap = 0) :
    inLoopCalls cap (n + 1) = inLoopCalls cap n ++ [(cap, decide (n / cap = 0))] := by
  simp [inLoopCalls, div_succ_of_mod_eq_zero cap n h, List.range_succ]

theorem inLoopCalls_succ_keep (cap n : Nat) (h : ¬ (n + 1) % cap = 0) :
    inLoopCalls cap (n + 1) = inLoopCalls cap n := by
  simp [inLoopCalls, div_succ_of_mod_ne_zero cap n h]

set_option maxHeartbeats 2000000 in
theorem loop_iteration (cfg : Config) (hcap : 0 < cfg.cap) (hmax : cfg.maxSamples < 4294967296)
    (n : Nat) (s : State) (a : Nat) (w : WaitResult) (rest : List WaitResult)
    (hI : LoopInv cfg n s) (hw : s.waits = .reported a :: w :: rest)
    (hn : n < cfg.maxSamples) (ha : WIFEXITED a = false) :
    ∃ k, LoopInv cfg (n + 1) (stepN cfg k s) ∧ (stepN cfg k s).waits = rest ∧
      (stepN cfg k s).status = s.status := by
  obtain ⟨pc, c, f, ph, ip, st, ws, tr, oc⟩ := s
  obtain ⟨h1, h2, h3, h4, h5, h6, h7, h8, h9⟩ := hI
  dsimp only at h1 h2 h3 h4 h5 h6 h7 h8 h9 hw
  subst h1 h2 h3 h4 h9 hw
  have hu : u32add c 1 = c + 1 := by unfold u32add; omega
  have hle : cfg.cap * (c / cfg.cap) ≤ c := Nat.mul_div_le c cfg.cap
  by_cases hz : (c + 1) % cfg.cap = 0
  · have hf := flushed_succ cfg.cap c hz
    have hd := div_succ_of_mod_eq_zero cfg.cap c hz
    have hs : u32sub (c + 1) (cfg.cap * (c / cfg.cap)) = cfg.cap := by unfold u32sub; omega
    have hfa : u32add (cfg.cap * (c / cfg.cap)) cfg.cap = cfg.cap * (c / cfg.cap + 1) := by
      unfold u32add; rw [Nat.mul_add, Nat.mul_one]; omega
    refine ⟨17, ?_⟩
    simp [stepN, step, State.emit, State.waitAny, hn, ha, hu, hz, LoopInv, printCalls_append,
      printCalls_cons, printCalls_nil, killsSent_append, killsSent_cons, killsSent_nil,
      endCount_append, endCount_cons, endCount_nil, beginCount_append, beginCount_cons,
      beginCount_nil, Event.isEnd, Event.isBegin, h5, h6, h7, h8, hs, hfa, hd,
      inLoopCalls_succ_flush cfg.cap c hz]
  · have hd := div_succ_of_mod_ne_zero cfg.cap c hz
    refine ⟨14, ?_⟩
    simp [stepN, step, State.emit, State.waitAny, hn, ha, hu, hz, LoopInv, printCalls_append,
      printCalls_cons, printCalls_nil, killsSent_append, killsSent_cons, killsSent_nil,
      endCount_append, endCount_cons, endCount_nil, beginCount_append, beginCount_cons,
      beginCount_nil, Event.isEnd, Event.isBegin, h5, h6, h7, h8, hd,
      inLoopCalls_succ_keep cfg.cap c hz]

theorem loop_iterations (cfg : Config) (hcap : 0 < cfg.cap) (hmax : cfg.maxSamples < 4294967296)
    (pairs : List (Nat × Nat)) (hstop : ∀ p ∈ pairs, WIFEXITED p.1 = false) :
    ∀ (n : Nat) (s : State) (rest : List WaitResult), LoopInv cfg n s →
      s.waits = waitsOf pairs ++ rest → n + pairs.length ≤ cfg.maxSamples →
      ∃ k, LoopInv cfg (n + pairs.length) (stepN cfg k s) ∧ (stepN cfg k s).waits = rest ∧
        (stepN cfg k s).status = s.status := by
  induction pairs with
  | nil =>
    intro n s rest hI hw _
    exact ⟨0, by simpa [stepN] using hI, by simpa [stepN, waitsOf] using hw, rfl⟩
  | cons p ps ih =>
    intro n s rest hI hw hlen
    obtain ⟨a, b⟩ := p
    simp only [List.length_cons] at hlen
    have ha : WIFEXITED a = false := hstop (a, b) (List.mem_cons_self _ _)
    obtain ⟨k1, hI1, hw1, hs1⟩ :=
      loop_iteration cfg hcap hmax n s a (.reported b) (waitsOf ps ++ rest) hI
        (by simpa [waitsOf] using hw) (by omega) ha
    obtain ⟨k2, hI2, hw2, hs2⟩ :=
      ih (fun q hq => hstop q (List.mem_cons_of_mem _ hq)) (n + 1) (stepN cfg k1 s) rest hI1 hw1
        (by omega)
    refine ⟨k1 + k2, ?_, ?_, ?_⟩
    · rw [stepN_add]
      have : n + (ps.length + 1) = n + 1 + ps.length := by omega
      simpa [this] using hI2
    · rw [stepN_add]; exact hw2
    · rw [stepN_add, hs2, hs1]

theorem run_to_head (cfg : Config) (hs : 0 < cfg.addrStart) (he : 0 < cfg.addrEnd)
    (w0 : WaitResult) (rest : List WaitResult) :
    LoopInv cfg 0 (run cfg (w0 :: rest) 5) ∧ (run cfg (w0 :: rest) 5).waits = rest := by
  cases w0 <;>
    simp [run, stepN, step, init, State.emit, hs, he, LoopInv, inLoopCalls, printCalls,
      killsSent, endCount, beginCount, Event.isEnd, Event.isBegin]

theorem loop_exit (cfg : Config) (hmax : cfg.maxSamples < 4294967296) (n : Nat) (s : State)
    (w : WaitResult) (rest : List WaitResult) (hI : LoopInv cfg n s) (hw : s.waits = w :: rest)
    (hn : n ≤ cfg.maxSamples)
    (hexit : n = cfg.maxSamples ∨ w = .failed ∨ ∃ e, w = .reported e ∧ WIFEXITED e = true) :
    Final cfg n (stepN cfg 6 s) := by
  obtain ⟨pc, c, f, ph, ip, st, ws, tr, oc⟩ := s
  obtain ⟨h1, h2, h3, h4, h5, h6, h7, h8, h9⟩ := hI
  dsimp only at h1 h2 h3 h4 h5 h6 h7 h8 h9 hw
  subst h1 h2 h3 h4 h9 hw
  have hle : cfg.cap * (c / cfg.cap) ≤ c := Nat.mul_div_le c cfg.cap
  have hdm := Nat.div_add_mod c cfg.cap
  have hs : u32sub c (cfg.cap * (c / cfg.cap)) = c % cfg.cap := by unfold u32sub; omega
  have hguard : ∀ e, w = .reported e → ¬ (c < cfg.maxSamples ∧ WIFEXITED e = false) := by
    intro e hwe hc
    rcases hexit with h | h | ⟨e2, h, h2⟩
    · omega
    · rw [h] at hwe; cases hwe
    · rw [h] at hwe; cases hwe; rw [h2] at hc; exact absurd hc.2 (by simp)
  cases w with
  | failed =>
    by_cases hc : c = cfg.maxSamples
    · subst hc
      cases ho : cfg.output <;>
        simp [stepN, step, State.emit, Final, ho, printCalls_append, printCalls_cons,
          printCalls_nil, killsSent_append, killsSent_cons, killsSent_nil, endCount_append,
          endCount_cons, endCount_nil, beginCount_append, beginCount_cons, beginCount_nil,
          Event.isEnd, Event.isBegin, h5, h6, h7, h8, hs]
    · cases ho : cfg.output <;>
        simp [stepN, step, State.emit, Final, hc, ho, printCalls_append, printCalls_cons,
          printCalls_nil, killsSent_append, killsSent_cons, killsSent_nil, endCount_append,
          endCount_cons, endCount_nil, beginCount_append, beginCount_cons, beginCount_nil,
          Event.isEnd, Event.isBegin, h5, h6, h7, h8, hs]
  | reported e =>
    have hg := hguard e rfl
    by_cases hc : c = cfg.maxSamples
    · subst hc
      cases ho : cfg.output <;>
        simp [stepN, step, State.emit, Final, ho, printCalls_append, printCalls_cons,
          printCalls_nil, killsSent_append, killsSent_cons, killsSent_nil, endCount_append,
          endCount_cons, endCount_nil, beginCount_append, beginCount_cons, beginCount_nil,
          Event.isEnd, Event.isBegin, h5, h6, h7, h8, hs]
    · cases ho : cfg.output <;>
        simp [stepN, step, State.emit, Final, hc, ho, hg, printCalls_append, printCalls_cons,
          printCalls_nil, killsSent_append, killsSent_cons, killsSent_nil, endCount_append,
          endCount_cons, endCount_nil, beginCount_append, beginCount_cons, beginCount_nil,
          Event.isEnd, Event.isBegin, h5, h6, h7, h8, hs]

theorem waitsOf_append (xs ys : List (Nat × Nat)) :
    waitsOf (xs ++ ys) = waitsOf xs ++ waitsOf ys := by
  induction xs with
  | nil => rfl
  | cons p ps ih => obtain ⟨a, b⟩ := p; simp [waitsOf, ih]

theorem final_stable (cfg : Config) (s : State) (K m : Nat) (hK : K ≤ m)
    (hpc : (stepN cfg K s).pc = .halted) : stepN cfg m s = stepN cfg K s :=
  stepN_of_le cfg s K m hK (step_halted cfg _ hpc)

/-- A per-invocation run on a tracee that stops twice per loop iteration,
`pairs.length` times, and whose next wait result ends the loop: the run halts
as `Final` describes. -/
theorem per_invocation_run (cfg : Config) (hs : 0 < cfg.addrStart) (he : 0 < cfg.addrEnd)
    (hcap : 0 < cfg.cap) (hmax : cfg.maxSamples < 4294967296)
    (w0 : WaitResult) (pairs : List (Nat × Nat)) (hstop : ∀ p ∈ pairs, WIFEXITED p.1 = false)
    (w : WaitResult) (rest : List WaitResult) (hlen : pairs.length ≤ cfg.maxSamples)
    (hexit : pairs.length = cfg.maxSamples ∨ w = .failed ∨
      ∃ e, w = .reported e ∧ WIFEXITED e = true) :
    ∃ K, ∀ m, K ≤ m → Final cfg pairs.length (run cfg (w0 :: (waitsOf pairs ++ w :: rest)) m) := by
  obtain ⟨hI0, hw0⟩ := run_to_head cfg hs he w0 (waitsOf pairs ++ w :: rest)
  obtain ⟨k, hI, hw, -⟩ :=
    loop_iterations cfg hcap hmax pairs hstop 0 _ (w :: rest) hI0 hw0 (by omega)
  rw [Nat.zero_add] at hI
  have hF := loop_exit cfg hmax pairs.length _ w rest hI hw hlen hexit
  refine ⟨5 + k + 6, fun m hm => ?_⟩
  have hrun : run cfg (w0 :: (waitsOf pairs ++ w :: rest)) (5 + k + 6) =
      stepN cfg 6 (stepN cfg k (run cfg (w0 :: (waitsOf pairs ++ w :: rest)) 5)) := by
    simp only [run, stepN_add]
  have hst : run cfg (w0 :: (waitsOf pairs ++ w :: rest)) m =
      run cfg (w0 :: (waitsOf pairs ++ w :: rest)) (5 + k + 6) := by
    unfold run
    apply final_stable cfg _ _ _ hm
    have := hF.1
    rw [← hrun] at this
    exact this
  rw [hst, hrun]
  exact hF

/-! ## Auxiliary facts for the claims -/

theorem sum_inLoopCalls (cap n : Nat) :
    ((inLoopCalls cap n).map Prod.fst).sum = cap * (n / cap) := by
  simp [inLoopCalls, List.map_map, Function.comp_def, List.map_const', List.sum_replicate,
    Nat.mul_comm]

theorem loopWaits_split (a b : Nat) :
    loopWaits (a + (1 + b)) =
      trap :: (waitsOf (List.replicate a (stopStatus SIGTRAP, stopStatus SIGTRAP)) ++
        trap :: loopWaits b) := by
  unfold loopWaits
  rw [List.replicate_add, List.replicate_add, waitsOf_append, waitsOf_append]
  simp [waitsOf, trap]

theorem u32add_zero_one : u32add 0 1 = 1 := by decide

theorem u32sub_one_zero : u32sub 1 0 = 1 := by decide

theorem u32sub_zero_zero : u32sub 0 0 = 0 := by decide

/-! ## Claims -/

/-- C1: in per-invocation mode, for every capacity `cap > 0` and every `n`
below `maxSamples`, a run without termination signal on a tracee that passes
`n` times through the region (two stops per pass) and then exits halts after
`n / cap` formatter calls of `cap` samples made inside the loop, followed by
one call of `n % cap` samples at shutdown; the headers flag is set on the
first call only, and the sample counts of the calls sum to `n`. -/
theorem flush_calls_of_run (cfg : Config) (hs : 0 < cfg.addrStart) (he : 0 < cfg.addrEnd)
    (hcap : 0 < cfg.cap) (hmax : cfg.maxSamples ≤ UINT_MAX) (n : Nat)
    (hn : n < cfg.maxSamples) (w0 : WaitResult) (pairs : List (Nat × Nat))
    (hlen : pairs.length = n)
    (hstop : ∀ p ∈ pairs, WIFEXITED p.1 = false ∧ WIFEXITED p.2 = false)
    (e : Nat) (hexit : WIFEXITED e = true) (rest : List WaitResult) :
    ∃ K, ∀ m, K ≤ m →
      (run cfg (w0 :: (waitsOf pairs ++ .reported e :: rest)) m).pc = .halted ∧
      printCalls (run cfg (w0 :: (waitsOf pairs ++ .reported e :: rest)) m).trace =
        (List.range (n / cfg.cap)).map (fun i => (cfg.cap, decide (i = 0))) ++
          [(n % cfg.cap, decide (n / cfg.cap = 0))] ∧
      ((printCalls (run cfg (w0 :: (waitsOf pairs ++ .reported e :: rest)) m).trace).map
        Prod.fst).sum = n := by
  have hmax2 : cfg.maxSamples < 4294967296 := by unfold UINT_MAX at hmax; omega
  obtain ⟨K, hK⟩ :=
    per_invocation_run cfg hs he hcap hmax2 w0 pairs (fun p hp => (hstop p hp).1)
      (.reported e) rest (by omega) (Or.inr (Or.inr ⟨e, rfl, hexit⟩))
  refine ⟨K, fun m hm => ?_⟩
  obtain ⟨h1, -, h3, -⟩ := hK m hm
  rw [hlen] at h3
  refine ⟨h1, h3, ?_⟩
  rw [h3, List.map_append, List.sum_append]
  rw [sum_inLoopCalls cfg.cap n]
  simp [Nat.div_add_mod]

/-- C1, the scenario of the specification: capacity 4 and a region loop of 9
give formatter calls of 4 samples with headers, 4 samples, and 1 sample. -/
theorem flush_calls_of_run_witness :
    ∃ K, ∀ m, K ≤ m →
      (run (regionCfg 100 4) (loopWaits 9) m).pc = .halted ∧
      printCalls (run (regionCfg 100 4) (loopWaits 9) m).trace =
        [(4, true), (4, false), (1, false)] ∧
      ((printCalls (run (regionCfg 100 4) (loopWaits 9) m).trace).map Prod.fst).sum = 9 :=
  flush_calls_of_run (regionCfg 100 4) (by decide) (by decide) (by decide) (by decide) 9
    (by decide) trap (List.replicate 9 (stopStatus SIGTRAP, stopStatus SIGTRAP)) (by decide)
    (by
      intro p hp
      rw [List.eq_of_mem_replicate hp]
      decide)
    (exitStatus 0) (by decide) []

/-- C2: with the capacity of the source and any `maxSamples` up to
`UINT_MAX`, at every point of every run, and in the state the signal handler
leaves when it is entered at that point, the flushed count does not exceed
the sample count, at most `MAX_SAMPLES` samples are buffered, the flushed
count is a multiple of `MAX_SAMPLES`, every index used by `beginSample` and
`endSample` is below `MAX_SAMPLES`, and `sampleCount` has not wrapped. -/
theorem counters_invariant (cfg : Config) (hcap : cfg.cap = MAX_SAMPLES)
    (hmax : cfg.maxSamples ≤ UINT_MAX) (waits : List WaitResult) (n signum : Nat) :
    CountersOk MAX_SAMPLES (run cfg waits n) ∧
      CountersOk MAX_SAMPLES (runSignal cfg waits n signum) := by
  have hmax2 : cfg.maxSamples < 4294967296 := by unfold UINT_MAX at hmax; omega
  have hcap2 : 0 < cfg.cap := by rw [hcap]; decide
  have hI := inv2_run cfg hcap2 hmax2 waits n
  have hC := inv2_counters cfg hmax2 _ hI
  have hH := inv2_handler cfg signum _ hI hC
  rw [hcap] at hC hH
  exact ⟨hC, hH⟩

/-- C2 on a run of three region passes, observed after 40 statements and
with `SIGINT` delivered there. -/
theorem counters_invariant_witness :
    CountersOk MAX_SAMPLES (run (regionCfg 100 MAX_SAMPLES) (loopWaits 3) 40) ∧
      CountersOk MAX_SAMPLES (runSignal (regionCfg 100 MAX_SAMPLES) (loopWaits 3) 40 SIGINT) :=
  counters_invariant (regionCfg 100 MAX_SAMPLES) rfl (by decide) (loopWaits 3) 40 SIGINT

/-- C3 fails as stated.  First run: the tracee hits the start breakpoint and
exits inside the region; the exit is reported by the `waitpid` of line 60,
whose status is not looked at, and a sample is counted although no region was
completed.  Second run: the tracee stops twice for `SIGUSR1` and never at a
breakpoint; the two stops begin and close a sample. -/
theorem samples_vs_regions_counterexample :
    (regionsCompleted [trap, .reported (exitStatus 0), .failed] = 0 ∧
      (run (regionCfg 100 MAX_SAMPLES) [trap, trap, .reported (exitStatus 0), .failed] 30).pc
        = .halted ∧
      (run (regionCfg 100 MAX_SAMPLES) [trap, trap, .reported (exitStatus 0), .failed]
        30).sampleCount = 1) ∧
    (regionsCompleted [.reported (stopStatus SIGUSR1), .reported (stopStatus SIGUSR1),
        .reported (exitStatus 0)] = 0 ∧
      (run (regionCfg 100 MAX_SAMPLES)
        [trap, .reported (stopStatus SIGUSR1), .reported (stopStatus SIGUSR1),
          .reported (exitStatus 0)] 30).pc = .halted ∧
      beginCount (run (regionCfg 100 MAX_SAMPLES)
        [trap, .reported (stopStatus SIGUSR1), .reported (stopStatus SIGUSR1),
          .reported (exitStatus 0)] 30).trace = 1 ∧
      (run (regionCfg 100 MAX_SAMPLES)
        [trap, .reported (stopStatus SIGUSR1), .reported (stopStatus SIGUSR1),
          .reported (exitStatus 0)] 30).sampleCount = 1) := by
  decide

/-- C3, amended: in per-invocation mode without termination signal, every
stop of the tracee reported at the loop head while `sampleCount < maxSamples`
begins a sample and the stop reported next closes it, whatever the stop
signals are.  For a tracee that stops `2 * k` times and whose exit is then
reported at the loop head, the run halts with `min k maxSamples` samples, as
many `beginSample` calls and as many `endSample` calls. -/
theorem samples_equal_stop_pairs (cfg : Config) (hs : 0 < cfg.addrStart)
    (he : 0 < cfg.addrEnd) (hcap : 0 < cfg.cap) (hmax : cfg.maxSamples ≤ UINT_MAX)
    (w0 : WaitResult) (pairs : List (Nat × Nat))
    (hstop : ∀ p ∈ pairs, WIFEXITED p.1 = false ∧ WIFEXITED p.2 = false)
    (e : Nat) (hexit : WIFEXITED e = true) (rest : List WaitResult) :
    ∃ K, ∀ m, K ≤ m →
      (run cfg (w0 :: (waitsOf pairs ++ .reported e :: rest)) m).pc = .halted ∧
      (run cfg (w0 :: (waitsOf pairs ++ .reported e :: rest)) m).sampleCount =
        min pairs.length cfg.maxSamples ∧
      beginCount (run cfg (w0 :: (waitsOf pairs ++ .reported e :: rest)) m).trace =
        min pairs.length cfg.maxSamples ∧
      endCount (run cfg (w0 :: (waitsOf pairs ++ .reported e :: rest)) m).trace =
        min pairs.length cfg.maxSamples := by
  have hmax2 : cfg.maxSamples < 4294967296 := by unfold UINT_MAX at hmax; omega
  rcases le_or_lt pairs.length cfg.maxSamples with hle | hgt
  · obtain ⟨K, hK⟩ :=
      per_invocation_run cfg hs he hcap hmax2 w0 pairs (fun p hp => (hstop p hp).1)
        (.reported e) rest hle (Or.inr (Or.inr ⟨e, rfl, hexit⟩))
    refine ⟨K, fun m hm => ?_⟩
    obtain ⟨h1, h2, -, -, h5, h6, -⟩ := hK m hm
    rw [Nat.min_eq_left hle]
    exact ⟨h1, h2, h6, h5⟩
  · have hsplit : pairs = pairs.take cfg.maxSamples ++ pairs.drop cfg.maxSamples :=
      (List.take_append_drop _ _).symm
    have hlt : (pairs.take cfg.maxSamples).length = cfg.maxSamples := by
      rw [List.length_take]; omega
    have hdl : 0 < (pairs.drop cfg.maxSamples).length := by
      rw [List.length_drop]; omega
    obtain ⟨p, tl, hd⟩ : ∃ p tl, pairs.drop cfg.maxSamples = p :: tl := by
      cases hq : pairs.drop cfg.maxSamples with
      | nil => rw [hq] at hdl; simp at hdl
      | cons p tl => exact ⟨p, tl, rfl⟩
    obtain ⟨a, b⟩ := p
    have hw : waitsOf pairs ++ .reported e :: rest =
        waitsOf (pairs.take cfg.maxSamples) ++
          .reported a :: (.reported b :: (waitsOf tl ++ .reported e :: rest)) := by
      conv_lhs => rw [hsplit, waitsOf_append, hd]
      simp [waitsOf]
    obtain ⟨K, hK⟩ :=
      per_invocation_run cfg hs he hcap hmax2 w0 (pairs.take cfg.maxSamples)
        (fun q hq => (hstop q (List.mem_of_mem_take hq)).1)
        (.reported a) (.reported b :: (waitsOf tl ++ .reported e :: rest)) (by omega)
        (Or.inl hlt)
    refine ⟨K, fun m hm => ?_⟩
    obtain ⟨h1, h2, -, -, h5, h6, -⟩ := hK m hm
    rw [hw, Nat.min_eq_right (Nat.le_of_lt hgt)]
    rw [hlt] at h2 h5 h6
    exact ⟨h1, h2, h6, h5⟩

/-- C3, amended, on five region passes with `max_samples = 100`: five samples. -/
theorem samples_equal_stop_pairs_witness :
    ∃ K, ∀ m, K ≤ m →
      (run (regionCfg 100 MAX_SAMPLES) (loopWaits 5) m).pc = .halted ∧
      (run (regionCfg 100 MAX_SAMPLES) (loopWaits 5) m).sampleCount = 5 ∧
      beginCount (run (regionCfg 100 MAX_SAMPLES) (loopWaits 5) m).trace = 5 ∧
      endCount (run (regionCfg 100 MAX_SAMPLES) (loopWaits 5) m).trace = 5 :=
  samples_equal_stop_pairs (regionCfg 100 MAX_SAMPLES) (by decide) (by decide) (by decide)
    (by decide) trap (List.replicate 5 (stopStatus SIGTRAP, stopStatus SIGTRAP))
    (by
      intro p hp
      rw [List.eq_of_mem_replicate hp]
      decide)
    (exitStatus 0) (by decide) []

/-- C6 fails as stated, with `maxSamples = 1`.  First run: the tracee hits the
start breakpoint and exits inside the region, so it exits after no completed
pass; the sample is counted all the same, `sampleCount` reaches `maxSamples`
and `SIGTERM` is sent.  Second run: the tracee stops twice for `SIGUSR1`,
never at a breakpoint, and exits; the two stops count as a loop iteration and
`SIGTERM` is sent. -/
theorem sigterm_without_pass_counterexample :
    (regionCfg 1 MAX_SAMPLES).maxSamples = 1 ∧
    (regionsCompleted [trap, .reported (exitStatus 0), .failed] = 0 ∧
      (run (regionCfg 1 MAX_SAMPLES) [trap, trap, .reported (exitStatus 0), .failed] 30).pc
        = .halted ∧
      killsSent (run (regionCfg 1 MAX_SAMPLES) [trap, trap, .reported (exitStatus 0), .failed]
        30).trace = [SIGTERM]) ∧
    (regionsCompleted [.reported (stopStatus SIGUSR1), .reported (stopStatus SIGUSR1),
        .reported (exitStatus 0)] = 0 ∧
      (run (regionCfg 1 MAX_SAMPLES)
        [trap, .reported (stopStatus SIGUSR1), .reported (stopStatus SIGUSR1),
          .reported (exitStatus 0)] 30).pc = .halted ∧
      killsSent (run (regionCfg 1 MAX_SAMPLES)
        [trap, .reported (stopStatus SIGUSR1), .reported (stopStatus SIGUSR1),
          .reported (exitStatus 0)] 30).trace = [SIGTERM]) := by
  decide

/-- C6, amended: in per-invocation mode without termination signal
`sampleCount` never exceeds `maxSamples`, whatever the wait results.  When the
tracee goes through `maxSamples` loop iterations (two stops each, of whatever
signal) and one more wait result arrives, or when its exit is reported at the
loop head after fewer iterations, the run halts with one sample per
iteration, and `SIGTERM` is sent exactly when that number is `maxSamples`. -/
theorem cap_and_sigterm (cfg : Config) (hs : 0 < cfg.addrStart) (he : 0 < cfg.addrEnd)
    (hcap : 0 < cfg.cap) (hmax : cfg.maxSamples ≤ UINT_MAX)
    (w0 : WaitResult) (pairs : List (Nat × Nat))
    (hstop : ∀ p ∈ pairs, WIFEXITED p.1 = false ∧ WIFEXITED p.2 = false)
    (w : WaitResult) (rest : List WaitResult) (hlen : pairs.length ≤ cfg.maxSamples)
    (hexit : pairs.length = cfg.maxSamples ∨ ∃ e, w = .reported e ∧ WIFEXITED e = true) :
    (∀ waits n, (run cfg waits n).sampleCount ≤ cfg.maxSamples) ∧
    ∃ K, ∀ m, K ≤ m →
      (run cfg (w0 :: (waitsOf pairs ++ w :: rest)) m).pc = .halted ∧
      (run cfg (w0 :: (waitsOf pairs ++ w :: rest)) m).sampleCount = pairs.length ∧
      killsSent (run cfg (w0 :: (waitsOf pairs ++ w :: rest)) m).trace =
        (if pairs.length = cfg.maxSamples then [SIGTERM] else []) := by
  have hmax2 : cfg.maxSamples < 4294967296 := by unfold UINT_MAX at hmax; omega
  refine ⟨fun waits n => inv6_le cfg _ (inv6_run cfg hs he hmax2 waits n), ?_⟩
  obtain ⟨K, hK⟩ :=
    per_invocation_run cfg hs he hcap hmax2 w0 pairs (fun p hp => (hstop p hp).1) w rest hlen
      (by
        rcases hexit with h | h
        · exact Or.inl h
        · exact Or.inr (Or.inr h))
  refine ⟨K, fun m hm => ?_⟩
  obtain ⟨h1, h2, -, h4, -⟩ := hK m hm
  exact ⟨h1, h2, h4⟩

/-- C6, amended, on the scenario of the specification: 100 region passes with
`max_samples = 10` give 10 samples and a `SIGTERM` to the tracee. -/
theorem cap_and_sigterm_witness :
    (∀ waits n, (run (regionCfg 10 MAX_SAMPLES) waits n).sampleCount ≤ 10) ∧
    ∃ K, ∀ m, K ≤ m →
      (run (regionCfg 10 MAX_SAMPLES) (loopWaits 100) m).pc = .halted ∧
      (run (regionCfg 10 MAX_SAMPLES) (loopWaits 100) m).sampleCount = 10 ∧
      killsSent (run (regionCfg 10 MAX_SAMPLES) (loopWaits 100) m).trace = [SIGTERM] := by
  have hw : loopWaits 100 =
      trap :: (waitsOf (List.replicate 10 (stopStatus SIGTRAP, stopStatus SIGTRAP)) ++
        trap :: loopWaits 89) := loopWaits_split 10 89
  rw [hw]
  exact cap_and_sigterm (regionCfg 10 MAX_SAMPLES) (by decide) (by decide) (by decide)
    (by decide) trap (List.replicate 10 (stopStatus SIGTRAP, stopStatus SIGTRAP))
    (by
      intro p hp
      rw [List.eq_of_mem_replicate hp]
      decide)
    trap (loopWaits 89) (by decide) (Or.inl (by decide))

/-- C9 fails as stated: with `maxSamples = 1` and one region pass, the calls
made after the `endSample` that reaches the cap are `resetBreakpoint`,
`setBreakpoint(addrStart)`, `PTRACE_CONT` and the `waitpid` of the loop head,
and only then `kill(pid, SIGTERM)`. -/
theorem resume_before_sigterm_counterexample :
    (run (regionCfg 1 MAX_SAMPLES) (loopWaits 1) 30).pc = .halted ∧
    (run (regionCfg 1 MAX_SAMPLES) (loopWaits 1) 30).sampleCount =
      (regionCfg 1 MAX_SAMPLES).maxSamples ∧
    afterLastEnd (run (regionCfg 1 MAX_SAMPLES) (loopWaits 1) 30).trace =
      [.resetBreakpoint, .setBreakpoint 4096, .ptraceCont, .waitpid, .kill SIGTERM,
        .printSamples 1 true] := by
  decide

/-- C9, amended: when closing a sample at line 63-65 makes `sampleCount` equal
to `maxSamples`, the driver still flushes if the buffer is full (that is, if
`maxSamples` is a multiple of the capacity: one formatter call of
`maxSamples - flushedSampleCount` samples with the current headers flag, after
which the flag is cleared and `flushedSampleCount` advances by the capacity),
re-installs the start breakpoint, resumes the tracee with `PTRACE_CONT` and
waits at the loop head; once that wait returns, it leaves the loop and sends
`SIGTERM`.  Between the `endSample` of the capping sample and the `SIGTERM`
the calls are exactly: that flush if the buffer is full and none otherwise,
`resetBreakpoint`, `setBreakpoint(addrStart)`, one `PTRACE_CONT` and one
`waitpid`. -/
theorem cap_reached_resumes (cfg : Config) (hmax : cfg.maxSamples ≤ UINT_MAX) (s : State)
    (hpc : s.pc = .pi_end) (hcount : s.sampleCount + 1 = cfg.maxSamples)
    (w : WaitResult) (rest : List WaitResult) (hw : s.waits = w :: rest) :
    ∃ k,
      (stepN cfg k s).pc = .pi_ret ∧
      (stepN cfg k s).sampleCount = cfg.maxSamples ∧
      (stepN cfg k s).waits = rest ∧
      (stepN cfg k s).flushedSampleCount =
        (if cfg.maxSamples % cfg.cap = 0 then u32add s.flushedSampleCount cfg.cap
          else s.flushedSampleCount) ∧
      (stepN cfg k s).printHeaders =
        (if cfg.maxSamples % cfg.cap = 0 then false else s.printHeaders) ∧
      (stepN cfg k s).trace =
        s.trace ++ [.endSample (u32sub s.sampleCount s.flushedSampleCount)] ++
          (if cfg.maxSamples % cfg.cap = 0 then
            [.printSamples (u32sub cfg.maxSamples s.flushedSampleCount) s.printHeaders]
          else []) ++
          [.resetBreakpoint, .setBreakpoint cfg.addrStart, .ptraceCont, .waitpid,
            .kill SIGTERM] := by
  obtain ⟨pc, c, f, ph, ip, st, ws, tr, oc⟩ := s
  dsimp only at hpc hcount hw
  subst hpc hw
  have hu : u32add c 1 = cfg.maxSamples := by unfold u32add; unfold UINT_MAX at hmax; omega
  by_cases hz : cfg.maxSamples % cfg.cap = 0
  · refine ⟨11, ?_⟩
    cases w <;> simp [stepN, step, State.emit, hu, hz]
  · refine ⟨8, ?_⟩
    cases w <;> simp [stepN, step, State.emit, hu, hz]

/-- C9, amended, at two states about to close the capping sample.  First,
after 13 statements of a run with `maxSamples = 1` and the capacity of the
source: the buffer is not full and nothing is flushed.  Second, after 13
statements of a run with `maxSamples = 1` and capacity 1: the buffer is full
and one sample is flushed, with headers, before the tracee is resumed. -/
theorem cap_reached_resumes_witness :
    (∃ k,
      (stepN (regionCfg 1 MAX_SAMPLES) k (run (regionCfg 1 MAX_SAMPLES) (loopWaits 1) 13)).pc
        = .pi_ret ∧
      (stepN (regionCfg 1 MAX_SAMPLES) k
        (run (regionCfg 1 MAX_SAMPLES) (loopWaits 1) 13)).sampleCount = 1 ∧
      (stepN (regionCfg 1 MAX_SAMPLES) k
        (run (regionCfg 1 MAX_SAMPLES) (loopWaits 1) 13)).waits = [] ∧
      (stepN (regionCfg 1 MAX_SAMPLES) k
        (run (regionCfg 1 MAX_SAMPLES) (loopWaits 1) 13)).flushedSampleCount = 0 ∧
      (stepN (regionCfg 1 MAX_SAMPLES) k
        (run (regionCfg 1 MAX_SAMPLES) (loopWaits 1) 13)).printHeaders = true ∧
      (stepN (regionCfg 1 MAX_SAMPLES) k (run (regionCfg 1 MAX_SAMPLES) (loopWaits 1) 13)).trace
        = (run (regionCfg 1 MAX_SAMPLES) (loopWaits 1) 13).trace ++ [.endSample 0] ++ [] ++
          [.resetBreakpoint, .setBreakpoint 4096, .ptraceCont, .waitpid, .kill SIGTERM]) ∧
    (∃ k,
      (stepN (regionCfg 1 1) k (run (regionCfg 1 1) (loopWaits 1) 13)).pc = .pi_ret ∧
      (stepN (regionCfg 1 1) k (run (regionCfg 1 1) (loopWaits 1) 13)).sampleCount = 1 ∧
      (stepN (regionCfg 1 1) k (run (regionCfg 1 1) (loopWaits 1) 13)).waits = [] ∧
      (stepN (regionCfg 1 1) k (run (regionCfg 1 1) (loopWaits 1) 13)).flushedSampleCount
        = 1 ∧
      (stepN (regionCfg 1 1) k (run (regionCfg 1 1) (loopWaits 1) 13)).printHeaders = false ∧
      (stepN (regionCfg 1 1) k (run (regionCfg 1 1) (loopWaits 1) 13)).trace
        = (run (regionCfg 1 1) (loopWaits 1) 13).trace ++ [.endSample 0] ++
          [.printSamples 1 true] ++
          [.resetBreakpoint, .setBreakpoint 4096, .ptraceCont, .waitpid, .kill SIGTERM]) :=
  ⟨cap_reached_resumes (regionCfg 1 MAX_SAMPLES) (by decide)
      (run (regionCfg 1 MAX_SAMPLES) (loopWaits 1) 13) (by decide) (by decide)
      (.reported (exitStatus 0)) [] (by decide),
    cap_reached_resumes (regionCfg 1 1) (by decide)
      (run (regionCfg 1 1) (loopWaits 1) 13) (by decide) (by decide)
      (.reported (exitStatus 0)) [] (by decide)⟩

/-- C4, the code at the failing input: per-invocation mode, the tracee has
made its initial stop and has not reached the start breakpoint; the driver is
blocked in the `waitpid` of line 51 and no `beginSample` has been issued.
`SIGINT` arrives: the handler finds `sampleInProgress` set by its initialiser
(line 24), calls `endSample` on slot 0, counts a sample, and reports one
sample. -/
theorem handler_before_first_sample :
    (run (regionCfg 100 MAX_SAMPLES) [trap] 8).pc = .pi_head ∧
    (run (regionCfg 100 MAX_SAMPLES) [trap] 8).sampleInProgress = true ∧
    beginCount (run (regionCfg 100 MAX_SAMPLES) [trap] 8).trace = 0 ∧
    (runSignal (regionCfg 100 MAX_SAMPLES) [trap] 8 SIGINT).sampleCount = 1 ∧
    (runSignal (regionCfg 100 MAX_SAMPLES) [trap] 8 SIGINT).trace =
      [.waitpid, .configureEvents, .setBreakpoint 4096, .ptraceCont, .kill SIGINT,
        .endSample 0, .printSamples 1 true] := by
  decide

/-- C5, the code at the failing input: global mode on a tracee that makes its
initial trace stop (status `0x57f`) and then exits with code 0, no signal.
`main` returns the `status` written by the `waitpid` of line 185, which
`globalPerformance` never touches: `0x57f`, whose low byte, the exit status
of the process, is 127.  In per-invocation mode `status` is overwritten with
the `0` returned by `perInvocationPerformance`. -/
theorem global_exit_status :
    (run (globalCfg 0) [trap, .reported (exitStatus 0)] 20).pc = .halted ∧
    (run (globalCfg 0) [trap, .reported (exitStatus 0)] 20).outcome = .returned (some 1407) ∧
    1407 % 256 = 127 ∧
    (run (regionCfg 100 MAX_SAMPLES) (loopWaits 1) 30).outcome = .returned (some 0) := by
  decide

/-- C7, the code at the failing input: `perf-invok /bin/echo hello`.  The
parser leaves `programStart = 1`; `numParams = argc - 3 = 0`, so a single
pointer is copied and `execvp` receives `/bin/echo` alone, while
`argv[programStart ..]` is `/bin/echo hello`.  With `argc = 2` the copy is
empty and `execvp` receives no argument at all. -/
theorem child_argv_drops_last :
    (parseArgs (fun _ => 0) (fun _ => 0) ["perf-invok", "/bin/echo", "hello"]).programStart = 1 ∧
    childNewargs ["perf-invok", "/bin/echo", "hello"] 1 = some [some "/bin/echo", none] ∧
    execArgs [some "/bin/echo", none] = ["/bin/echo"] ∧
    ["perf-invok", "/bin/echo", "hello"].drop 1 = ["/bin/echo", "hello"] ∧
    (parseArgs (fun _ => 0) (fun _ => 0) ["perf-invok", "/bin/true"]).programStart = 1 ∧
    childNewargs ["perf-invok", "/bin/true"] 1 = some [none] ∧
    execArgs [none] = [] := by
  decide

/-- C8: in global mode, for every timeout, exactly one sample is produced and
reported.  When the tracee exits by itself, `globalPerformance` returns after
11 statements with `sampleCount = 1`, having called `beginSample` on slot 0,
`PTRACE_CONT`, `alarm(timeout)`, `waitpid` and `endSample` on slot 0, in that
order; the run then halts with a single formatter call, of one sample with
headers, so that one sample was begun, one was closed and one is reported.
When a termination signal arrives while the driver waits for the tracee
(line 91), sample 0 has been begun and not closed; the handler forwards the
signal, closes sample 0 and makes the only formatter call, of one sample with
headers.  Both runs are given by their complete sequence of calls. -/
theorem global_one_sample (cfg : Config) (hglobal : cfg.addrStart = 0 ∨ cfg.addrEnd = 0)
    (w0 w1 : WaitResult) (rest : List WaitResult) (signum m : Nat) (hm : 14 ≤ m) :
    ((run cfg (w0 :: w1 :: rest) 11).pc = .main_print ∧
      (run cfg (w0 :: w1 :: rest) 11).sampleCount = 1 ∧
      (run cfg (w0 :: w1 :: rest) 11).sampleInProgress = false ∧
      (run cfg (w0 :: w1 :: rest) 11).trace =
        [.waitpid, .configureEvents, .beginSample 0, .ptraceCont, .alarm cfg.timeout,
          .waitpid, .endSample 0] ∧
      (run cfg (w0 :: w1 :: rest) m).pc = .halted ∧
      (run cfg (w0 :: w1 :: rest) m).sampleCount = 1 ∧
      printCalls (run cfg (w0 :: w1 :: rest) m).trace = [(1, true)] ∧
      beginCount (run cfg (w0 :: w1 :: rest) m).trace = 1 ∧
      endCount (run cfg (w0 :: w1 :: rest) m).trace = 1 ∧
      (run cfg (w0 :: w1 :: rest) m).trace =
        [.waitpid, .configureEvents, .beginSample 0, .ptraceCont, .alarm cfg.timeout,
          .waitpid, .endSample 0, .printSamples 1 true] ++
          (if cfg.output then [.fclose] else [])) ∧
    ((run cfg [w0] m).pc = .g_wait ∧
      (run cfg [w0] m).sampleInProgress = true ∧
      (run cfg [w0] m).trace =
        [.waitpid, .configureEvents, .beginSample 0, .ptraceCont, .alarm cfg.timeout] ∧
      (runSignal cfg [w0] m signum).sampleCount = 1 ∧
      printCalls (runSignal cfg [w0] m signum).trace = [(1, true)] ∧
      beginCount (runSignal cfg [w0] m signum).trace = 1 ∧
      endCount (runSignal cfg [w0] m signum).trace = 1 ∧
      Event.endSample 0 ∈ (runSignal cfg [w0] m signum).trace ∧
      (runSignal cfg [w0] m signum).trace =
        [.waitpid, .configureEvents, .beginSample 0, .ptraceCont, .alarm cfg.timeout,
          .kill signum, .endSample 0, .printSamples 1 true] ++
          (if cfg.output then [.fclose] else []) ∧
      (runSignal cfg [w0] m signum).outcome = .exited (-1)) := by
  have hd : ¬ (0 < cfg.addrStart ∧ 0 < cfg.addrEnd) := by omega
  have h14 : run cfg (w0 :: w1 :: rest) m = run cfg (w0 :: w1 :: rest) 14 := by
    unfold run
    apply final_stable cfg _ _ _ hm
    cases w0 <;> cases ho : cfg.output <;>
      simp [stepN, step, init, State.emit, State.waitAny, hd, ho]
  have h7 : run cfg [w0] m = run cfg [w0] 7 := by
    unfold run
    apply stepN_of_le cfg _ _ _ (by omega)
    cases w0 <;> simp [stepN, step, init, State.emit, State.waitAny, hd]
  rw [h14]
  unfold runSignal
  rw [h7]
  constructor
  · cases w0 <;> cases ho : cfg.output <;>
      simp [run, stepN, step, init, State.emit, State.waitAny, hd, ho, u32add_zero_one,
        u32sub_one_zero, u32sub_zero_zero, printCalls, beginCount, endCount, Event.isBegin,
        Event.isEnd]
  · cases w0 <;> cases ho : cfg.output <;>
      simp [run, handler, stepN, step, init, State.emit, State.waitAny, hd, ho,
        u32add_zero_one, u32sub_one_zero, u32sub_zero_zero, printCalls, beginCount, endCount,
        Event.isBegin, Event.isEnd]

/-- C8 on the scenarios of the specification: a target that exits by itself
with no timeout, and a target stopped by the alarm of a one second timeout. -/
theorem global_one_sample_witness :
    ((run (globalCfg 0) (trap :: .reported (exitStatus 0) :: []) 11).pc = .main_print ∧
      (run (globalCfg 0) (trap :: .reported (exitStatus 0) :: []) 11).sampleCount = 1 ∧
      (run (globalCfg 0) (trap :: .reported (exitStatus 0) :: []) 11).sampleInProgress
        = false ∧
      (run (globalCfg 0) (trap :: .reported (exitStatus 0) :: []) 11).trace =
        [.waitpid, .configureEvents, .beginSample 0, .ptraceCont, .alarm 0, .waitpid,
          .endSample 0] ∧
      (run (globalCfg 0) (trap :: .reported (exitStatus 0) :: []) 14).pc = .halted ∧
      (run (globalCfg 0) (trap :: .reported (exitStatus 0) :: []) 14).sampleCount = 1 ∧
      printCalls (run (globalCfg 0) (trap :: .reported (exitStatus 0) :: []) 14).trace =
        [(1, true)] ∧
      beginCount (run (globalCfg 0) (trap :: .reported (exitStatus 0) :: []) 14).trace = 1 ∧
      endCount (run (globalCfg 0) (trap :: .reported (exitStatus 0) :: []) 14).trace = 1 ∧
      (run (globalCfg 0) (trap :: .reported (exitStatus 0) :: []) 14).trace =
        [.waitpid, .configureEvents, .beginSample 0, .ptraceCont, .alarm 0, .waitpid,
          .endSample 0, .printSamples 1 true] ++ []) ∧
    ((run (globalCfg 1) [trap] 14).pc = .g_wait ∧
      (run (globalCfg 1) [trap] 14).sampleInProgress = true ∧
      (run (globalCfg 1) [trap] 14).trace =
        [.waitpid, .configureEvents, .beginSample 0, .ptraceCont, .alarm 1] ∧
      (runSignal (globalCfg 1) [trap] 14 SIGALRM).sampleCount = 1 ∧
      printCalls (runSignal (globalCfg 1) [trap] 14 SIGALRM).trace = [(1, true)] ∧
      beginCount (runSignal (globalCfg 1) [trap] 14 SIGALRM).trace = 1 ∧
      endCount (runSignal (globalCfg 1) [trap] 14 SIGALRM).trace = 1 ∧
      Event.endSample 0 ∈ (runSignal (globalCfg 1) [trap] 14 SIGALRM).trace ∧
      (runSignal (globalCfg 1) [trap] 14 SIGALRM).trace =
        [.waitpid, .configureEvents, .beginSample 0, .ptraceCont, .alarm 1, .kill SIGALRM,
          .endSample 0, .printSamples 1 true] ++ [] ∧
      (runSignal (globalCfg 1) [trap] 14 SIGALRM).outcome = .exited (-1)) :=
  ⟨(global_one_sample (globalCfg 0) (Or.inl rfl) trap (.reported (exitStatus 0)) [] SIGALRM 14
      (by decide)).1,
    (global_one_sample (globalCfg 1) (Or.inl rfl) trap (.reported (exitStatus 0)) [] SIGALRM 14
      (by decide)).2⟩

/-- C10: in per-invocation mode, in every run and at every point of it, also
after the signal handler has run, the calls made so far keep the breakpoint
discipline: `setBreakpoint` is only called with the cursor breakpoint
disarmed and `resetBreakpoint` only with it armed, starting disarmed, and
at every `PTRACE_CONT` the breakpoint is armed, at `addrEnd` when a
`beginSample` has not yet been followed by its `endSample` and at `addrStart`
otherwise.  Nothing is assumed on `addrStart` and `addrEnd` beyond being
nonzero, so they may be equal. -/
theorem breakpoint_discipline (cfg : Config) (hs : 0 < cfg.addrStart) (he : 0 < cfg.addrEnd)
    (waits : List WaitResult) (n signum : Nat) :
    (bpReplay cfg.addrStart cfg.addrEnd (run cfg waits n).trace).ok = true ∧
    (bpReplay cfg.addrStart cfg.addrEnd (runSignal cfg waits n signum).trace).ok = true := by
  have h := inv10_ok cfg _ (inv10_run cfg hs he waits n)
  exact ⟨h, handler_bp_ok cfg signum _ h⟩

/-- C10 on a run of three region passes over a zero-length region
(`addrStart = addrEnd`), complete and interrupted by `SIGINT` after 40
statements. -/
theorem breakpoint_discipline_witness :
    (bpReplay 4096 4096
      (run { regionCfg 100 MAX_SAMPLES with addrEnd := 4096 } (loopWaits 3) 60).trace).ok
        = true ∧
    (bpReplay 4096 4096
      (runSignal { regionCfg 100 MAX_SAMPLES with addrEnd := 4096 } (loopWaits 3) 60
        SIGINT).trace).ok = true :=
  breakpoint_discipline { regionCfg 100 MAX_SAMPLES with addrEnd := 4096 } (by decide)
    (by decide) (loopWaits 3) 60 SIGINT

end PerfInvok
